import Mathlib

/-!
Shallow embedding of `src/build.py`, a minimal build orchestrator: it parses a
line-oriented build-description file (`Bldfile`) into five per-program
dictionaries, validates each declared program's directories / source files /
options, and invokes a detected compiler once per program, aborting the whole
run on the first failure.

Python dictionaries (insertion ordered) are modelled as association lists,
the mutable `prog` cursor of `load_bldfile` as an explicit `Option String`
field of the parser state, the filesystem and the compiler as an `Env` of
boolean oracles, and process termination as an `Outcome` that distinguishes
`sys.exit(1)` from an uncaught Python exception (both are non-zero
terminations).
-/

/-- Python `s.split(sep)` for a one-character separator, on character lists:
keeps empty segments, so the result is always non-empty. -/
def pySplit (sep : Char) : List Char → List (List Char)
  | [] => [[]]
  | c :: cs =>
    match pySplit sep cs with
    | [] => [[]]
    | t :: ts => if c = sep then [] :: t :: ts else (c :: t) :: ts

/-- Python `' '.join(parts)` on character lists. -/
def pyJoinSp : List (List Char) → List Char
  | [] => []
  | [x] => x
  | x :: y :: ys => x ++ ' ' :: pyJoinSp (y :: ys)

/-- Python `line.split('=', maxsplit=1)`: the characters before the first
`'='` and everything after it.  (Only used on lines that contain `'='`.) -/
def splitEq1 : List Char → List Char × List Char
  | [] => ([], [])
  | c :: cs =>
    if c = '=' then ([], cs)
    else
      let p := splitEq1 cs
      (c :: p.1, p.2)

/-- Helper for `pySplitWs`: scans the characters, accumulating the current
token in reverse. -/
def wsAux : List Char → List Char → List (List Char)
  | [], acc => if acc = [] then [] else [acc.reverse]
  | c :: cs, acc =>
    if c.isWhitespace then
      if acc = [] then wsAux cs [] else acc.reverse :: wsAux cs []
    else wsAux cs (c :: acc)

/-- Python `s.split()` (no argument): whitespace-separated tokens, empty
tokens dropped. -/
def pySplitWs (s : String) : List String :=
  (wsAux s.data []).map fun t => ⟨t⟩

/-- Python `s.strip()`: leading and trailing whitespace removed. -/
def pyStrip (l : List Char) : List Char :=
  ((l.dropWhile Char.isWhitespace).reverse.dropWhile Char.isWhitespace).reverse

/-- POSIX `os.path.join(a, b)` for two components. -/
def pathJoin (a b : String) : String :=
  if b.data.head? = some '/' then b
  else if a = "" then b
  else if a.data.getLast? = some '/' then a ++ b
  else a ++ "/" ++ b

/-- Python dict assignment `d[k] = v`: updates the value in place if the key
is present (keeping its position), appends otherwise. -/
def dinsert (d : List (String × String)) (k v : String) : List (String × String) :=
  match d with
  | [] => [(k, v)]
  | (k2, v2) :: rest => if k2 = k then (k2, v) :: rest else (k2, v2) :: dinsert rest k v

/-- Python `d.get(k)`. -/
def dget (d : List (String × String)) (k : String) : Option String :=
  match d with
  | [] => none
  | (k2, v) :: rest => if k2 = k then some v else dget rest k

/-- Python `list(d)`: the keys of a dict in insertion order. -/
def pykeys (d : List (String × String)) : List String :=
  d.map Prod.fst

/-- The state of `load_bldfile` while scanning lines: the five result
dictionaries and the `prog` local variable (unbound before the first
`prog=` line). -/
structure ParserState where
  progdic : List (String × String)
  srcdic : List (String × String)
  bindic : List (String × String)
  filedic : List (String × String)
  optdic : List (String × String)
  cur : Option String
deriving DecidableEq, Repr

def initState : ParserState := ⟨[], [], [], [], [], none⟩

/-- One iteration of the `for line in bldfile` loop of `load_bldfile`.
`Except.error ()` models the `UnboundLocalError` raised when a dependent key
appears before any `prog=` line (caught by the generic handler in
`load_bldfile`, which exits with status 1). -/
def processLine (st : ParserState) (rawLine : String) : Except Unit ParserState :=
  let line := pyStrip rawLine.data
  if line.head? = some '#' ∨ line = [] then .ok st
  else if line.contains '=' then
    let p := splitEq1 line
    let key : String := ⟨p.1⟩
    let value : String := ⟨p.2⟩
    if key = "prog" then
      .ok { st with progdic := dinsert st.progdic value value, cur := some value }
    else if key = "src" then
      match st.cur with
      | none => .error ()
      | some pr => .ok { st with srcdic := dinsert st.srcdic pr value }
    else if key = "bin" then
      match st.cur with
      | none => .error ()
      | some pr => .ok { st with bindic := dinsert st.bindic pr value }
    else if key = "file" then
      match st.cur with
      | none => .error ()
      | some pr => .ok { st with filedic := dinsert st.filedic pr value }
    else if key = "option" then
      match st.cur with
      | none => .error ()
      | some pr => .ok { st with optdic := dinsert st.optdic pr value }
    else .ok st
  else .ok st

/-- The line loop of `load_bldfile`, from a given state. -/
def parseLines (st : ParserState) : List String → Except Unit ParserState
  | [] => .ok st
  | l :: ls =>
    match processLine st l with
    | .error e => .error e
    | .ok st2 => parseLines st2 ls

/-- `load_bldfile`, given the lines of an existing, readable build file. -/
def load_bldfile (lines : List String) : Except Unit ParserState :=
  parseLines initState lines

/-- The value declared by a line if it is a `prog=` line (same line grammar
as `processLine`), `none` otherwise. -/
def progDeclOf (rawLine : String) : Option String :=
  let line := pyStrip rawLine.data
  if line.head? = some '#' ∨ line = [] then none
  else if line.contains '=' then
    let p := splitEq1 line
    if (⟨p.1⟩ : String) = "prog" then some (⟨p.2⟩ : String) else none
  else none

/-- The values of the `prog=` lines of a build file, in file order
(an observation function used to state ordering claims). -/
def progDecls (lines : List String) : List String :=
  lines.filterMap progDeclOf

/-- `get_binary_name`: `prog_name + ".exe"` on Windows, unmodified otherwise. -/
def get_binary_name (isWindows : Bool) (progName : String) : String :=
  if isWindows then progName ++ ".exe" else progName

/-- The external world of one run: platform family, filesystem oracles,
`os.makedirs` success and the compiler's exit status per command line. -/
structure Env where
  isWindows : Bool
  isDir : String → Bool
  isFile : String → Bool
  mkdirOk : String → Bool
  compileOk : List String → Bool

inductive SrcErr where
  | sourceDirNotFound
  | noValidSourceFiles
deriving DecidableEq, Repr

/-- `validate_sources(srcdir, files)`: requires an existing source directory,
then keeps the listed filenames (whitespace-split) that exist under it, each
joined with the directory; an empty result is an error. -/
def validate_sources (isDir isFile : String → Bool) (srcdir files : String) :
    Except SrcErr (List String) :=
  if isDir srcdir = false then .error .sourceDirNotFound
  else
    let source_files :=
      (pySplitWs files).filterMap fun f =>
        let j := pathJoin srcdir f
        if isFile j then some j else none
    if source_files = [] then .error .noValidSourceFiles
    else .ok source_files

/-- `validate_options(options)`: `' '.join(options.split(';'))`. -/
def validate_options (options : String) : String :=
  ⟨pyJoinSp (pySplit ';' options.data)⟩

/-- The command list built by `compile_program`. -/
def compile_command (compiler : String) (source_files : List String)
    (output_path options : String) : List String :=
  [compiler] ++ source_files ++ ["-g", "-o", output_path, options]

/-- The distinct error messages the program prints before `sys.exit(1)`. -/
inductive ErrMsg where
  | missingFileList
  | binDirCreateFailed
  | sourceDirNotFound
  | noValidSourceFiles
  | compileFailed
  | parseError
deriving DecidableEq, Repr

/-- Uncaught Python exceptions that terminate the process with non-zero
status. -/
inductive PyExc where
  | valueErr
  | typeErr
  | attrErr
  | envErr
deriving DecidableEq, Repr

/-- How a run of `main` terminates: exit code 0, `sys.exit(1)` after an error
message, or an uncaught exception (also a non-zero termination). -/
inductive Outcome where
  | ok
  | exit1 (msg : ErrMsg)
  | crash (exc : PyExc)
deriving DecidableEq, Repr

/-- Result of one iteration of the `for prog in progdic` loop of `main`:
abort before any compiler invocation, compiler invoked but failed, or binary
built. -/
inductive StepResult where
  | fatalPre (o : Outcome)
  | compileFailed (cmd : List String)
  | built (cmd : List String) (outPath : String)
deriving DecidableEq, Repr

def StepResult.isBuilt : StepResult → Bool
  | .built _ _ => true
  | _ => false

def stepCmd : StepResult → List String
  | .built c _ => c
  | .compileFailed c => c
  | .fatalPre _ => []

def stepOut : StepResult → String
  | .built _ o => o
  | _ => ""

/-- The body of the `for prog in progdic` loop of `main`, including the
behavior of the helpers it calls: missing `file=` aborts with exit 1; a
falsy `bin=` raises `ValueError` in `prepare_directories`; `os.makedirs`
failure exits 1; a missing `src=` makes `os.path.isdir(None)` raise
`TypeError`; `validate_sources` failures exit 1; a missing `option=` makes
`validate_options(None)` raise `AttributeError` (`None.split`); finally the
compiler is invoked and a non-zero exit status exits 1. -/
def buildStep (env : Env) (compiler : String) (st : ParserState) (prog : String) :
    StepResult :=
  let outbin := get_binary_name env.isWindows prog
  match dget st.filedic prog with
  | none => .fatalPre (.exit1 .missingFileList)
  | some files =>
    if files = "" then .fatalPre (.exit1 .missingFileList)
    else
      match dget st.bindic prog with
      | none => .fatalPre (.crash .valueErr)
      | some bindir =>
        if bindir = "" then .fatalPre (.crash .valueErr)
        else if env.mkdirOk bindir = false then .fatalPre (.exit1 .binDirCreateFailed)
        else
          match dget st.srcdic prog with
          | none => .fatalPre (.crash .typeErr)
          | some srcdir =>
            match validate_sources env.isDir env.isFile srcdir files with
            | .error .sourceDirNotFound => .fatalPre (.exit1 .sourceDirNotFound)
            | .error .noValidSourceFiles => .fatalPre (.exit1 .noValidSourceFiles)
            | .ok source_files =>
              let output_path := pathJoin bindir outbin
              match dget st.optdic prog with
              | none => .fatalPre (.crash .attrErr)
              | some opt =>
                let options := validate_options opt
                let cmd := compile_command compiler source_files output_path options
                if env.compileOk cmd then .built cmd output_path
                else .compileFailed cmd

/-- What a whole run did: its termination outcome, the compiler command lines
actually invoked (in order), and the output paths successfully built. -/
structure MainResult where
  outcome : Outcome
  attempts : List (List String)
  binaries : List String
deriving DecidableEq, Repr

/-- The `for prog in progdic` loop of `main`: sequential, aborting the whole
run on the first failing program. -/
def runProgs (env : Env) (compiler : String) (st : ParserState) :
    List String → MainResult
  | [] => ⟨.ok, [], []⟩
  | p :: rest =>
    match buildStep env compiler st p with
    | .fatalPre o => ⟨o, [], []⟩
    | .compileFailed cmd => ⟨.exit1 .compileFailed, [cmd], []⟩
    | .built cmd outPath =>
      let r := runProgs env compiler st rest
      ⟨r.outcome, cmd :: r.attempts, outPath :: r.binaries⟩

/-- `main`, given the lines of the build file and the result of compiler
detection (`none` models `detect_compiler` raising `EnvironmentError`).
A parse error inside `load_bldfile` is caught there and exits 1. -/
def runMain (env : Env) (compilerDetected : Option String) (lines : List String) :
    MainResult :=
  match load_bldfile lines with
  | .error _ => ⟨.exit1 .parseError, [], []⟩
  | .ok st =>
    match compilerDetected with
    | none => ⟨.crash .envErr, [], []⟩
    | some compiler => runProgs env compiler st (pykeys st.progdic)

/-! ## Basic lemmas about the embedded helpers -/

theorem pySplit_ne_nil (sep : Char) (l : List Char) : pySplit sep l ≠ [] := by
  cases l with
  | nil => simp [pySplit]
  | cons c cs =>
    simp only [pySplit]
    cases pySplit sep cs with
    | nil => simp
    | cons t ts =>
      by_cases h : c = sep <;> simp [h]

theorem pyJoinSp_cons_cons (c : Char) (t : List Char) (ts : List (List Char)) :
    pyJoinSp ((c :: t) :: ts) = c :: pyJoinSp (t :: ts) := by
  cases ts <;> rfl

/-- `' '.join(s.split(';'))` replaces every semicolon of `s` by one space. -/
theorem pyJoinSp_pySplit_semi (l : List Char) :
    pyJoinSp (pySplit ';' l) = l.map (fun c => if c = ';' then ' ' else c) := by
  induction l with
  | nil => rfl
  | cons c cs ih =>
    cases hs : pySplit ';' cs with
    | nil => exact absurd hs (pySplit_ne_nil ';' cs)
    | cons t ts =>
      rw [hs] at ih
      by_cases hc : c = ';'
      · subst hc
        have h1 : pySplit ';' (';' :: cs) = [] :: t :: ts := by
          simp [pySplit, hs]
        rw [h1]
        have h2 : pyJoinSp ([] :: t :: ts) = ' ' :: pyJoinSp (t :: ts) := rfl
        rw [h2, ih]
        simp
      · have h1 : pySplit ';' (c :: cs) = (c :: t) :: ts := by
          simp [pySplit, hs, hc]
        rw [h1, pyJoinSp_cons_cons, ih]
        simp [hc]

/-- A line whose stripped text is a comment, is blank, or contains no `=`
leaves the parser state untouched. -/
theorem processLine_skip (st : ParserState) (l : String)
    (h : (pyStrip l.data).head? = some '#' ∨ pyStrip l.data = [] ∨
      (pyStrip l.data).contains '=' = false) :
    processLine st l = .ok st := by
  unfold processLine
  rcases h with h | h | h
  · simp [h]
  · simp [h]
  · by_cases h2 : (pyStrip l.data).head? = some '#' ∨ pyStrip l.data = []
    · simp [if_pos h2]
    · have h3 : '=' ∉ pyStrip l.data := by simpa using h
      simp [if_neg h2, h3]

/-! ## C10 -/

/-- C10: a non-blank, non-comment line containing no `=` character is
silently skipped by the parser: it changes none of the five dictionaries,
raises no error, and parsing continues from the same state. -/
theorem c10_line_without_equals_skipped (st : ParserState) (l : String)
    (h1 : (pyStrip l.data).head? ≠ some '#') (h2 : pyStrip l.data ≠ [])
    (h3 : (pyStrip l.data).contains '=' = false) :
    processLine st l = .ok st :=
  processLine_skip st l (Or.inr (Or.inr h3))

/-- Witness for C10 at the concrete line `"hello world"`. -/
theorem c10_witness :
    (pyStrip ("hello world" : String).data).head? ≠ some '#' ∧
    pyStrip ("hello world" : String).data ≠ [] ∧
    (pyStrip ("hello world" : String).data).contains '=' = false ∧
    processLine initState "hello world" = .ok initState :=
  ⟨by decide, by decide, by decide,
    c10_line_without_equals_skipped initState "hello world" (by decide) (by decide)
      (by decide)⟩

/-! ## C6 -/

/-- C6: option normalization maps a semicolon-separated option value to the
same string with every semicolon replaced by a single space; the normalized
string occupies exactly one (the last) element of the compiler command; and
in particular `-Wall;-O2` normalizes to the single string `"-Wall -O2"`. -/
theorem c6_option_normalization :
    (∀ s : String,
      validate_options s = ⟨s.data.map (fun c => if c = ';' then ' ' else c)⟩) ∧
    (∀ (compiler : String) (source_files : List String) (output_path s : String),
      (compile_command compiler source_files output_path
          (validate_options s)).getLast? = some (validate_options s)) ∧
    validate_options "-Wall;-O2" = "-Wall -O2" := by
  refine ⟨fun s => ?_, fun compiler source_files output_path s => ?_, by decide⟩
  · unfold validate_options
    rw [pyJoinSp_pySplit_semi]
  · have h1 : compile_command compiler source_files output_path (validate_options s) =
        (compiler :: (source_files ++ ["-g", "-o", output_path])) ++ [validate_options s] := by
      simp [compile_command]
    rw [h1, List.getLast?_concat]

/-! ## C1 -/

/-- The environment of the spec's success scenario: POSIX platform,
`./src` exists, `./src/hello.cpp` exists, directories are creatable and the
compiler always succeeds. -/
def c1Env : Env :=
  { isWindows := false
    isDir := fun s => s = "./src"
    isFile := fun s => s = "./src/hello.cpp"
    mkdirOk := fun _ => true
    compileOk := fun _ => true }

/-- The build file of the spec's success scenario: one program, no
`option=` entry. -/
def c1Lines : List String :=
  ["prog=hello", "src=./src", "bin=./out", "file=hello.cpp"]

/-- C1 (code bug): on the spec's success scenario without an `option=`
entry, `optdic.get(prog)` is `None` and `validate_options(None)` calls
`None.split(';')`, so the run dies with an uncaught `AttributeError`
(non-zero exit): the compiler is never invoked and no binary is produced,
contradicting the claimed exit code 0 with a binary at `./out/hello`. -/
theorem c1_missing_option_crashes :
    runMain c1Env (some "g++") c1Lines =
      ⟨.crash .attrErr, [], []⟩ ∧
    runMain c1Env (some "g++") (c1Lines ++ ["option="]) =
      ⟨.ok, [["g++", "./src/hello.cpp", "-g", "-o", "./out/hello", ""]],
        ["./out/hello"]⟩ := by
  constructor <;> decide

/-! ## C4 -/

theorem filterMap_if_eq_map_filter (p : String → Bool) (g : String → String) :
    ∀ l : List String,
      (l.filterMap fun f => if p f then some (g f) else none) = (l.filter p).map g := by
  intro l
  induction l with
  | nil => rfl
  | cons x xs ih =>
    by_cases hx : p x
    · simp [List.filterMap_cons, List.filter_cons, hx, ih]
    · simp [List.filterMap_cons, List.filter_cons, hx, ih]

/-- C4: when the source directory exists and at least one listed filename
exists under it, validation succeeds and the resolved source files are
exactly the existing listed names, each joined with the source directory,
in listed order; missing names are silently dropped. -/
theorem c4_resolved_sources (isDir isFile : String → Bool) (srcdir files : String)
    (h1 : isDir srcdir = true)
    (h2 : ∃ f ∈ pySplitWs files, isFile (pathJoin srcdir f) = true) :
    validate_sources isDir isFile srcdir files =
      .ok (((pySplitWs files).filter fun f => isFile (pathJoin srcdir f)).map
        (pathJoin srcdir)) := by
  obtain ⟨f0, hf0mem, hf0⟩ := h2
  unfold validate_sources
  rw [if_neg (by simp [h1])]
  simp only []
  rw [filterMap_if_eq_map_filter (fun f => isFile (pathJoin srcdir f)) (pathJoin srcdir)]
  rw [if_neg]
  intro hnil
  rw [List.map_eq_nil_iff, List.filter_eq_nil_iff] at hnil
  exact hnil f0 hf0mem (by simp [hf0])

/-- Witness for C4: `b.cpp` is listed but missing and is dropped; `a.cpp`
and `c.cpp` survive in listed order. -/
theorem c4_witness :
    (fun s => s = "./src" : String → Bool) "./src" = true ∧
    (∃ f ∈ pySplitWs "a.cpp b.cpp c.cpp",
      (fun s => s = "./src/a.cpp" ∨ s = "./src/c.cpp" : String → Bool)
        (pathJoin "./src" f) = true) ∧
    validate_sources (fun s => s = "./src")
        (fun s => s = "./src/a.cpp" ∨ s = "./src/c.cpp") "./src" "a.cpp b.cpp c.cpp" =
      .ok (((pySplitWs "a.cpp b.cpp c.cpp").filter
          (fun f => (fun s => s = "./src/a.cpp" ∨ s = "./src/c.cpp" : String → Bool)
            (pathJoin "./src" f))).map (pathJoin "./src")) :=
  ⟨by decide, by decide,
    c4_resolved_sources (fun s => s = "./src")
      (fun s => s = "./src/a.cpp" ∨ s = "./src/c.cpp") "./src" "a.cpp b.cpp c.cpp"
      (by decide) (by decide)⟩

/-! ## C7 -/

/-- C7: for a program that reaches compilation (file list present and
non-empty, binary directory present and creatable, source directory present,
validation succeeded, option entry present), the compiler command line is
exactly `[compiler] ++ resolvedSourceFiles ++ ["-g", "-o", outputPath,
normalizedOptions]`, the normalized option string being one single final
element. -/
theorem c7_compile_command_shape (env : Env) (compiler : String) (st : ParserState)
    (prog files bindir srcdir opt : String) (srcs : List String)
    (hf : dget st.filedic prog = some files) (hfne : files ≠ "")
    (hb : dget st.bindic prog = some bindir) (hbne : bindir ≠ "")
    (hmk : env.mkdirOk bindir = true)
    (hs : dget st.srcdic prog = some srcdir)
    (hv : validate_sources env.isDir env.isFile srcdir files = .ok srcs)
    (ho : dget st.optdic prog = some opt) :
    stepCmd (buildStep env compiler st prog) =
      [compiler] ++ srcs ++ ["-g", "-o",
        pathJoin bindir (get_binary_name env.isWindows prog), validate_options opt] := by
  simp only [buildStep, hf, hb, hs, ho, hv, if_neg hfne, if_neg hbne, hmk]
  cases hco : env.compileOk (compile_command compiler srcs
      (pathJoin bindir (get_binary_name env.isWindows prog)) (validate_options opt)) <;>
    simp [hco, stepCmd, compile_command]

/-! ## Sequencing lemmas about the main loop -/

/-- Splitting the main loop after a prefix of successfully built programs:
the prefix contributes one attempt and one binary per program, and the
outcome is decided by the remaining programs. -/
theorem runProgs_append_of_built (env : Env) (compiler : String) (st : ParserState)
    (pre rest : List String)
    (h : ∀ q ∈ pre, (buildStep env compiler st q).isBuilt = true) :
    runProgs env compiler st (pre ++ rest) =
      ⟨(runProgs env compiler st rest).outcome,
        (pre.map fun q => stepCmd (buildStep env compiler st q)) ++
          (runProgs env compiler st rest).attempts,
        (pre.map fun q => stepOut (buildStep env compiler st q)) ++
          (runProgs env compiler st rest).binaries⟩ := by
  induction pre with
  | nil => simp
  | cons q pre ih =>
    have hq : (buildStep env compiler st q).isBuilt = true := h q (List.mem_cons_self q pre)
    have hrest : ∀ r ∈ pre, (buildStep env compiler st r).isBuilt = true :=
      fun r hr => h r (List.mem_cons_of_mem q hr)
    cases hstep : buildStep env compiler st q with
    | fatalPre o => rw [hstep] at hq; simp [StepResult.isBuilt] at hq
    | compileFailed cmd => rw [hstep] at hq; simp [StepResult.isBuilt] at hq
    | built cmd outPath =>
      show runProgs env compiler st (q :: (pre ++ rest)) = _
      simp only [runProgs, hstep, ih hrest, List.map_cons, stepCmd, stepOut,
        List.cons_append]

theorem runProgs_cons_fatalPre (env : Env) (compiler : String) (st : ParserState)
    (p : String) (rest : List String) (o : Outcome)
    (h : buildStep env compiler st p = .fatalPre o) :
    runProgs env compiler st (p :: rest) = ⟨o, [], []⟩ := by
  simp [runProgs, h]

theorem runProgs_cons_compileFailed (env : Env) (compiler : String) (st : ParserState)
    (p : String) (rest : List String) (cmd : List String)
    (h : buildStep env compiler st p = .compileFailed cmd) :
    runProgs env compiler st (p :: rest) = ⟨.exit1 .compileFailed, [cmd], []⟩ := by
  simp [runProgs, h]

/-- A program with no (or an empty) `file=` entry aborts its loop iteration
with the missing-file-list error before anything else happens. -/
theorem buildStep_missingFileList (env : Env) (compiler : String) (st : ParserState)
    (p : String) (h : dget st.filedic p = none ∨ dget st.filedic p = some "") :
    buildStep env compiler st p = .fatalPre (.exit1 .missingFileList) := by
  rcases h with h | h <;> simp [buildStep, h]

/-! ## C3 -/

/-- C3: if every program before `p` in the loop builds successfully and `p`
has no `file=` entry, the run aborts at `p` with the missing-file-list error
(a non-zero termination): the result is the same as if the programs after
`p` were not declared at all, and only the programs before `p` ever reach
the compiler. -/
theorem c3_missing_filelist_aborts (env : Env) (compiler : String) (st : ParserState)
    (pre : List String) (p : String) (post : List String)
    (hpre : ∀ q ∈ pre, (buildStep env compiler st q).isBuilt = true)
    (hp : dget st.filedic p = none ∨ dget st.filedic p = some "") :
    runProgs env compiler st (pre ++ p :: post) = runProgs env compiler st (pre ++ [p]) ∧
    (runProgs env compiler st (pre ++ p :: post)).outcome = .exit1 .missingFileList ∧
    (runProgs env compiler st (pre ++ p :: post)).attempts.length = pre.length := by
  have hstep := buildStep_missingFileList env compiler st p hp
  have h1 := runProgs_cons_fatalPre env compiler st p post (.exit1 .missingFileList) hstep
  have h2 := runProgs_cons_fatalPre env compiler st p [] (.exit1 .missingFileList) hstep
  rw [runProgs_append_of_built env compiler st pre (p :: post) hpre,
    runProgs_append_of_built env compiler st pre [p] hpre, h1, h2]
  simp

/-- An environment in which every declared source/binary directory and file
exists and the compiler always succeeds. -/
def c3Env : Env :=
  { isWindows := false
    isDir := fun s => s = "sdir"
    isFile := fun _ => true
    mkdirOk := fun _ => true
    compileOk := fun _ => true }

/-- A parsed state declaring programs `a`, `b`, `c` where `b` alone lacks a
`file=` entry. -/
def c3State : ParserState :=
  { progdic := [("a", "a"), ("b", "b"), ("c", "c")]
    srcdic := [("a", "sdir"), ("b", "sdir"), ("c", "sdir")]
    bindic := [("a", "bdir"), ("b", "bdir"), ("c", "bdir")]
    filedic := [("a", "a.cpp"), ("c", "c.cpp")]
    optdic := [("a", "-O2"), ("b", "-O2"), ("c", "-O2")]
    cur := some "c" }

/-- Witness for C3: program `a` builds, program `b` has no `file=` entry,
program `c` would have built but is never reached. -/
theorem c3_witness :
    (∀ q ∈ ["a"], (buildStep c3Env "g++" c3State q).isBuilt = true) ∧
    (dget c3State.filedic "b" = none ∨ dget c3State.filedic "b" = some "") ∧
    runProgs c3Env "g++" c3State (["a"] ++ "b" :: ["c"]) =
      runProgs c3Env "g++" c3State (["a"] ++ ["b"]) ∧
    (runProgs c3Env "g++" c3State (["a"] ++ "b" :: ["c"])).outcome =
      .exit1 .missingFileList ∧
    (runProgs c3Env "g++" c3State (["a"] ++ "b" :: ["c"])).attempts.length =
      ["a"].length := by
  refine ⟨by decide, by decide, ?_⟩
  exact c3_missing_filelist_aborts c3Env "g++" c3State ["a"] "b" ["c"]
    (by decide) (by decide)

/-! ## C5 -/

/-- C5: if a reached program's `file=` names only filenames that do not
exist under its (existing) source directory, validation fails with the
no-valid-source-files error, the run terminates with that non-zero status,
and no compiler invocation happens for that program or any later one. -/
theorem c5_no_valid_sources (env : Env) (compiler : String) (st : ParserState)
    (pre : List String) (p : String) (post : List String)
    (files bindir srcdir : String)
    (hpre : ∀ q ∈ pre, (buildStep env compiler st q).isBuilt = true)
    (hf : dget st.filedic p = some files) (hfne : files ≠ "")
    (hb : dget st.bindic p = some bindir) (hbne : bindir ≠ "")
    (hmk : env.mkdirOk bindir = true)
    (hs : dget st.srcdic p = some srcdir) (hdir : env.isDir srcdir = true)
    (hnone : ∀ f ∈ pySplitWs files, env.isFile (pathJoin srcdir f) = false) :
    validate_sources env.isDir env.isFile srcdir files = .error .noValidSourceFiles ∧
    (runProgs env compiler st (pre ++ p :: post)).outcome = .exit1 .noValidSourceFiles ∧
    (runProgs env compiler st (pre ++ p :: post)).attempts.length = pre.length := by
  have hempty : ((pySplitWs files).filterMap fun f =>
      let j := pathJoin srcdir f
      if env.isFile j then some j else none) = [] := by
    rw [List.filterMap_eq_nil_iff]
    intro f hfmem
    simp [hnone f hfmem]
  have hval : validate_sources env.isDir env.isFile srcdir files =
      .error .noValidSourceFiles := by
    unfold validate_sources
    rw [if_neg (by simp [hdir])]
    simp [hempty]
  have hstep : buildStep env compiler st p = .fatalPre (.exit1 .noValidSourceFiles) := by
    simp only [buildStep, hf, hb, hs, if_neg hfne, if_neg hbne, hmk, hval]
    simp
  have h1 := runProgs_cons_fatalPre env compiler st p post (.exit1 .noValidSourceFiles) hstep
  rw [runProgs_append_of_built env compiler st pre (p :: post) hpre, h1]
  refine ⟨hval, rfl, ?_⟩
  simp

/-- Environment for the C5 witness: `sdir` exists, only `sdir/a.cpp` exists
as a file. -/
def c5Env : Env :=
  { isWindows := false
    isDir := fun s => s = "sdir"
    isFile := fun s => s = "sdir/a.cpp"
    mkdirOk := fun _ => true
    compileOk := fun _ => true }

/-- Parsed state for the C5 witness: program `a` builds, program `b` lists
only filenames that do not exist. -/
def c5State : ParserState :=
  { progdic := [("a", "a"), ("b", "b"), ("c", "c")]
    srcdic := [("a", "sdir"), ("b", "sdir"), ("c", "sdir")]
    bindic := [("a", "bdir"), ("b", "bdir"), ("c", "bdir")]
    filedic := [("a", "a.cpp"), ("b", "ghost.cpp phantom.cpp"), ("c", "a.cpp")]
    optdic := [("a", "-O2"), ("b", "-O2"), ("c", "-O2")]
    cur := some "c" }

/-- Witness for C5: program `b` lists `ghost.cpp phantom.cpp`, neither of
which exists; the run stops there with one attempt made (for `a`). -/
theorem c5_witness :
    (∀ q ∈ ["a"], (buildStep c5Env "g++" c5State q).isBuilt = true) ∧
    (∀ f ∈ pySplitWs "ghost.cpp phantom.cpp",
      c5Env.isFile (pathJoin "sdir" f) = false) ∧
    validate_sources c5Env.isDir c5Env.isFile "sdir" "ghost.cpp phantom.cpp" =
      .error .noValidSourceFiles ∧
    (runProgs c5Env "g++" c5State (["a"] ++ "b" :: ["c"])).outcome =
      .exit1 .noValidSourceFiles ∧
    (runProgs c5Env "g++" c5State (["a"] ++ "b" :: ["c"])).attempts.length =
      ["a"].length := by
  refine ⟨by decide, by decide, ?_⟩
  exact c5_no_valid_sources c5Env "g++" c5State ["a"] "b" ["c"]
    "ghost.cpp phantom.cpp" "bdir" "sdir"
    (by decide) (by decide) (by decide) (by decide) (by decide) (by decide)
    (by decide) (by decide) (by decide)

/-! ## C8 -/

/-- C8: if every program before `p` builds successfully and the compiler
invocation for `p` exits with non-zero status, the run terminates with the
(non-zero) compile-failed status, exactly the programs up to and including
`p` are attempted, and the programs declared after `p` are never reached:
the run result is identical to the one where they were not declared. -/
theorem c8_compile_failure_stops_run (env : Env) (compiler : String) (st : ParserState)
    (pre : List String) (p : String) (post : List String) (cmd : List String)
    (hpre : ∀ q ∈ pre, (buildStep env compiler st q).isBuilt = true)
    (hfail : buildStep env compiler st p = .compileFailed cmd) :
    runProgs env compiler st (pre ++ p :: post) = runProgs env compiler st (pre ++ [p]) ∧
    (runProgs env compiler st (pre ++ p :: post)).outcome = .exit1 .compileFailed ∧
    (runProgs env compiler st (pre ++ p :: post)).attempts.length = pre.length + 1 := by
  have h1 := runProgs_cons_compileFailed env compiler st p post cmd hfail
  have h2 := runProgs_cons_compileFailed env compiler st p [] cmd hfail
  rw [runProgs_append_of_built env compiler st pre (p :: post) hpre,
    runProgs_append_of_built env compiler st pre [p] hpre, h1, h2]
  simp

/-- Environment for the C8 witness: everything exists but every compiler
invocation fails. -/
def c8Env : Env :=
  { isWindows := false
    isDir := fun s => s = "sdir"
    isFile := fun s => s = "sdir/a.cpp" ∨ s = "sdir/b.cpp"
    mkdirOk := fun _ => true
    compileOk := fun _ => false }

/-- Parsed state for the C8 witness: two fully configured programs. -/
def c8State : ParserState :=
  { progdic := [("a", "a"), ("b", "b")]
    srcdic := [("a", "sdir"), ("b", "sdir")]
    bindic := [("a", "bdir"), ("b", "bdir")]
    filedic := [("a", "a.cpp"), ("b", "b.cpp")]
    optdic := [("a", "-O2"), ("b", "-O2")]
    cur := some "b" }

/-- Witness for C8: the first of two programs fails to compile; the second
is never attempted and the run exits non-zero after one attempt. -/
theorem c8_witness :
    (∀ q ∈ ([] : List String), (buildStep c8Env "g++" c8State q).isBuilt = true) ∧
    buildStep c8Env "g++" c8State "a" =
      .compileFailed ["g++", "sdir/a.cpp", "-g", "-o", "bdir/a", "-O2"] ∧
    runProgs c8Env "g++" c8State ([] ++ "a" :: ["b"]) =
      runProgs c8Env "g++" c8State ([] ++ ["a"]) ∧
    (runProgs c8Env "g++" c8State ([] ++ "a" :: ["b"])).outcome = .exit1 .compileFailed ∧
    (runProgs c8Env "g++" c8State ([] ++ "a" :: ["b"])).attempts.length =
      List.length ([] : List String) + 1 := by
  refine ⟨by decide, by decide, ?_⟩
  exact c8_compile_failure_stops_run c8Env "g++" c8State [] "a" ["b"]
    ["g++", "sdir/a.cpp", "-g", "-o", "bdir/a", "-O2"] (by decide) (by decide)

/-! ## C2: parsing preserves first-appearance order of program keys -/

/-- The effect of one Python dict assignment on the key sequence: nothing if
the key is already present, an append otherwise. -/
def insKey (l : List String) (k : String) : List String :=
  if k ∈ l then l else l ++ [k]

theorem pykeys_dinsert (d : List (String × String)) (k v : String) :
    pykeys (dinsert d k v) = insKey (pykeys d) k := by
  induction d with
  | nil => simp [dinsert, pykeys, insKey]
  | cons kv rest ih =>
    obtain ⟨k2, v2⟩ := kv
    by_cases hk : k2 = k
    · subst hk
      simp [dinsert, pykeys, insKey]
    · have hne : ¬ k = k2 := fun h => hk h.symm
      have hl : pykeys (dinsert ((k2, v2) :: rest) k v) =
          k2 :: pykeys (dinsert rest k v) := by
        simp [dinsert, hk, pykeys]
      rw [hl, ih]
      have hr : pykeys ((k2, v2) :: rest) = k2 :: pykeys rest := rfl
      rw [hr]
      unfold insKey
      by_cases hm : k ∈ pykeys rest
      · rw [if_pos hm, if_pos (List.mem_cons_of_mem k2 hm)]
      · have hm2 : k ∉ k2 :: pykeys rest := by simp [hne, hm]
        rw [if_neg hm, if_neg hm2]
        rfl

/-- One parsed line either leaves `progdic` unchanged (and is not a `prog=`
line) or performs exactly the dict assignment of its declared program. -/
theorem processLine_progdic (st : ParserState) (l : String) (st2 : ParserState)
    (h : processLine st l = .ok st2) :
    (progDeclOf l = none ∧ st2.progdic = st.progdic) ∨
    (∃ v, progDeclOf l = some v ∧ st2.progdic = dinsert st.progdic v v) := by
  unfold processLine at h
  unfold progDeclOf
  by_cases h1 : (pyStrip l.data).head? = some '#' ∨ pyStrip l.data = []
  · rw [if_pos h1] at h
    cases h
    exact Or.inl ⟨if_pos h1, rfl⟩
  · rw [if_neg h1] at h
    rw [if_neg h1]
    by_cases h2 : (pyStrip l.data).contains '=' = true
    · rw [if_pos h2] at h
      rw [if_pos h2]
      by_cases h3 : (⟨(splitEq1 (pyStrip l.data)).1⟩ : String) = "prog"
      · rw [if_pos h3] at h
        cases h
        exact Or.inr ⟨⟨(splitEq1 (pyStrip l.data)).2⟩, if_pos h3, rfl⟩
      · rw [if_neg h3] at h
        refine Or.inl ⟨if_neg h3, ?_⟩
        repeat' split at h
        all_goals cases h
        all_goals rfl
    · rw [if_neg h2] at h
      rw [if_neg h2]
      cases h
      exact Or.inl ⟨rfl, rfl⟩

theorem parse_progkeys : ∀ (ls : List String) (st st' : ParserState),
    parseLines st ls = .ok st' →
    pykeys st'.progdic = (progDecls ls).foldl insKey (pykeys st.progdic) := by
  intro ls
  induction ls with
  | nil =>
    intro st st' h
    cases h
    simp [progDecls]
  | cons l ls ih =>
    intro st st' h
    unfold parseLines at h
    cases hpl : processLine st l with
    | error e => rw [hpl] at h; cases h
    | ok st2 =>
      rw [hpl] at h
      have hrec := ih st2 st' h
      rcases processLine_progdic st l st2 hpl with ⟨hd, hpd⟩ | ⟨v, hd, hpd⟩
      · have hde : progDecls (l :: ls) = progDecls ls := by
          simp [progDecls, List.filterMap_cons, hd]
        rw [hde, hrec, hpd]
      · have hde : progDecls (l :: ls) = v :: progDecls ls := by
          simp [progDecls, List.filterMap_cons, hd]
        rw [hde, List.foldl_cons, hrec, hpd, pykeys_dinsert]

theorem foldl_insKey_of_nodup : ∀ (l acc : List String), (acc ++ l).Nodup →
    l.foldl insKey acc = acc ++ l := by
  intro l
  induction l with
  | nil => intro acc _; simp
  | cons k rest ih =>
    intro acc h
    have hk : k ∉ acc := by
      rw [List.nodup_append] at h
      exact fun hmem => h.2.2 hmem (List.mem_cons_self k rest)
    have h2 : ((acc ++ [k]) ++ rest).Nodup := by
      rw [List.append_assoc]
      exact h
    rw [List.foldl_cons]
    have h3 : insKey acc k = acc ++ [k] := by simp [insKey, hk]
    rw [h3, ih (acc ++ [k]) h2, List.append_assoc]
    rfl

/-- A loop iteration never "aborts with success": every early exit carries a
non-zero termination. -/
theorem buildStep_ne_fatalPre_ok (env : Env) (compiler : String) (st : ParserState)
    (p : String) : buildStep env compiler st p ≠ .fatalPre .ok := by
  intro h
  unfold buildStep at h
  repeat' split at h
  all_goals simp [ite_eq_iff] at h

/-- A run that terminates with exit code 0 attempted exactly one compile per
program it iterated. -/
theorem runProgs_ok_length (env : Env) (compiler : String) (st : ParserState) :
    ∀ progs : List String,
      (runProgs env compiler st progs).outcome = .ok →
      (runProgs env compiler st progs).attempts.length = progs.length := by
  intro progs
  induction progs with
  | nil => intro _; rfl
  | cons p rest ih =>
    intro h
    cases hstep : buildStep env compiler st p with
    | fatalPre o =>
      rw [runProgs_cons_fatalPre env compiler st p rest o hstep] at h
      have : o = .ok := h
      rw [this] at hstep
      exact absurd hstep (buildStep_ne_fatalPre_ok env compiler st p)
    | compileFailed cmd =>
      rw [runProgs_cons_compileFailed env compiler st p rest cmd hstep] at h
      cases h
    | built cmd outPath =>
      simp only [runProgs, hstep] at h ⊢
      simp [ih h]

/-- C2: for a build file that parses, the keys of the program dictionary —
the sequence `main` iterates over — are exactly the `prog=` values in
first-appearance file order; with N distinct `prog=` entries, a run that
terminates with exit code 0 made exactly N compile attempts. -/
theorem c2_jobs_in_declaration_order (lines : List String) (st : ParserState)
    (hparse : load_bldfile lines = .ok st)
    (hnodup : (progDecls lines).Nodup) :
    pykeys st.progdic = progDecls lines ∧
    ∀ (env : Env) (compiler : String),
      (runMain env (some compiler) lines).outcome = .ok →
      (runMain env (some compiler) lines).attempts.length = (progDecls lines).length := by
  have hkeys : pykeys st.progdic = progDecls lines := by
    have h1 := parse_progkeys lines initState st hparse
    rw [h1]
    exact foldl_insKey_of_nodup (progDecls lines) [] (by simpa using hnodup)
  refine ⟨hkeys, fun env compiler hok => ?_⟩
  simp only [runMain, hparse] at hok ⊢
  rw [runProgs_ok_length env compiler st (pykeys st.progdic) hok, hkeys]

/-- Build-file lines for the C2 witness: two fully configured programs. -/
def c2Lines : List String :=
  ["prog=a", "src=sdir", "bin=bdir", "file=a.cpp", "option=-O1",
   "prog=b", "src=sdir", "bin=bdir", "file=b.cpp", "option=-O2"]

/-- The parser state produced by `c2Lines`. -/
def c2State : ParserState :=
  { progdic := [("a", "a"), ("b", "b")]
    srcdic := [("a", "sdir"), ("b", "sdir")]
    bindic := [("a", "bdir"), ("b", "bdir")]
    filedic := [("a", "a.cpp"), ("b", "b.cpp")]
    optdic := [("a", "-O1"), ("b", "-O2")]
    cur := some "b" }

/-- Environment for the C2 witness: everything exists and compiles. -/
def c2Env : Env :=
  { isWindows := false
    isDir := fun s => s = "sdir"
    isFile := fun s => s = "sdir/a.cpp" ∨ s = "sdir/b.cpp"
    mkdirOk := fun _ => true
    compileOk := fun _ => true }

/-- Witness for C2: two distinct programs, both compile, two attempts in
declaration order. -/
theorem c2_witness :
    load_bldfile c2Lines = .ok c2State ∧
    (progDecls c2Lines).Nodup ∧
    pykeys c2State.progdic = progDecls c2Lines ∧
    (runMain c2Env (some "g++") c2Lines).outcome = .ok ∧
    (runMain c2Env (some "g++") c2Lines).attempts.length = (progDecls c2Lines).length := by
  have h := c2_jobs_in_declaration_order c2Lines c2State rfl (by decide)
  exact ⟨rfl, by decide, h.1, rfl, h.2 c2Env "g++" rfl⟩

/-! ## C9 -/

theorem splitEq1_cons_ne (c : Char) (cs : List Char) (hc : ¬ c = '=') :
    (splitEq1 (c :: cs)).1 = c :: (splitEq1 cs).1 := by
  simp [splitEq1, hc]

/-- Skippable lines (comments, blanks, lines without `=`) leave the parse of
the remaining lines unchanged. -/
theorem parseLines_skip_front : ∀ pre : List String,
    (∀ q ∈ pre, (pyStrip q.data).head? = some '#' ∨ pyStrip q.data = [] ∨
      (pyStrip q.data).contains '=' = false) →
    ∀ (st : ParserState) (more : List String),
      parseLines st (pre ++ more) = parseLines st more := by
  intro pre
  induction pre with
  | nil => intro _ st more; rfl
  | cons q pre ih =>
    intro h st more
    have hq := processLine_skip st q (h q (List.mem_cons_self q pre))
    show parseLines st (q :: (pre ++ more)) = _
    simp only [parseLines, hq]
    exact ih (fun r hr => h r (List.mem_cons_of_mem q hr)) st more

/-- A `src=`/`bin=`/`file=`/`option=` line reaching the parser while no
`prog=` line has bound the current program raises the modelled
`UnboundLocalError`. -/
theorem processLine_field_before_prog (st : ParserState) (l : String)
    (hcur : st.cur = none)
    (heq : (pyStrip l.data).contains '=' = true)
    (hkey : (⟨(splitEq1 (pyStrip l.data)).1⟩ : String) ∈
      (["src", "bin", "file", "option"] : List String)) :
    processLine st l = .error () := by
  have hne : ¬ ((pyStrip l.data).head? = some '#' ∨ pyStrip l.data = []) := by
    rintro (hh | hh)
    · obtain ⟨cs, hl⟩ : ∃ cs, pyStrip l.data = '#' :: cs := by
        cases hl : pyStrip l.data with
        | nil => rw [hl] at hh; simp at hh
        | cons c cs =>
          rw [hl] at hh
          simp only [List.head?_cons, Option.some.injEq] at hh
          exact ⟨cs, by rw [hh]⟩
      have h1 : (splitEq1 (pyStrip l.data)).1 = '#' :: (splitEq1 cs).1 := by
        rw [hl]
        exact splitEq1_cons_ne '#' cs (by decide)
      simp only [List.mem_cons, List.not_mem_nil, or_false] at hkey
      rcases hkey with hk | hk | hk | hk <;>
        (have hd := congrArg String.data hk; rw [h1] at hd; simp at hd)
    · rw [hh] at heq
      simp at heq
  have hkprog : ¬ (⟨(splitEq1 (pyStrip l.data)).1⟩ : String) = "prog" := by
    simp only [List.mem_cons, List.not_mem_nil, or_false] at hkey
    rcases hkey with hk | hk | hk | hk <;> (rw [hk]; decide)
  simp only [processLine]
  rw [if_neg hne, if_pos heq, if_neg hkprog]
  simp only [List.mem_cons, List.not_mem_nil, or_false] at hkey
  rcases hkey with hk | hk | hk | hk
  · rw [if_pos hk, hcur]
  · have h1 : ¬ (⟨(splitEq1 (pyStrip l.data)).1⟩ : String) = "src" := by rw [hk]; decide
    rw [if_neg h1, if_pos hk, hcur]
  · have h1 : ¬ (⟨(splitEq1 (pyStrip l.data)).1⟩ : String) = "src" := by rw [hk]; decide
    have h2 : ¬ (⟨(splitEq1 (pyStrip l.data)).1⟩ : String) = "bin" := by rw [hk]; decide
    rw [if_neg h1, if_neg h2, if_pos hk, hcur]
  · have h1 : ¬ (⟨(splitEq1 (pyStrip l.data)).1⟩ : String) = "src" := by rw [hk]; decide
    have h2 : ¬ (⟨(splitEq1 (pyStrip l.data)).1⟩ : String) = "bin" := by rw [hk]; decide
    have h3 : ¬ (⟨(splitEq1 (pyStrip l.data)).1⟩ : String) = "file" := by rw [hk]; decide
    rw [if_neg h1, if_neg h2, if_neg h3, if_pos hk, hcur]

/-- C9: a build file whose first non-blank, non-comment `key=value` line
uses `src`, `bin`, `file` or `option` before any `prog=` line makes
`load_bldfile` raise (no current program is bound); the generic read-error
handler catches it and the process terminates with non-zero status, before
any build work. -/
theorem c9_field_before_prog_errors (env : Env) (compilerDetected : Option String)
    (pre : List String) (l : String) (rest : List String)
    (hpre : ∀ q ∈ pre, (pyStrip q.data).head? = some '#' ∨ pyStrip q.data = [] ∨
      (pyStrip q.data).contains '=' = false)
    (heq : (pyStrip l.data).contains '=' = true)
    (hkey : (⟨(splitEq1 (pyStrip l.data)).1⟩ : String) ∈
      (["src", "bin", "file", "option"] : List String)) :
    load_bldfile (pre ++ l :: rest) = .error () ∧
    runMain env compilerDetected (pre ++ l :: rest) = ⟨.exit1 .parseError, [], []⟩ := by
  have herr : load_bldfile (pre ++ l :: rest) = .error () := by
    unfold load_bldfile
    rw [parseLines_skip_front pre hpre initState (l :: rest)]
    have hpl := processLine_field_before_prog initState l rfl heq hkey
    simp only [parseLines, hpl]
  refine ⟨herr, ?_⟩
  simp only [runMain, herr]

/-- Environment for the C9 witness (irrelevant to the parse failure). -/
def c9Env : Env :=
  { isWindows := false
    isDir := fun _ => true
    isFile := fun _ => true
    mkdirOk := fun _ => true
    compileOk := fun _ => true }

/-- Witness for C9: after a comment, a blank line and a line without `=`,
the first `key=value` line is `src=./x` with no preceding `prog=`; the run
exits non-zero with nothing attempted. -/
theorem c9_witness :
    (∀ q ∈ ["# header", "  ", "stray line"],
      (pyStrip q.data).head? = some '#' ∨ pyStrip q.data = [] ∨
        (pyStrip q.data).contains '=' = false) ∧
    (pyStrip ("src=./x" : String).data).contains '=' = true ∧
    (⟨(splitEq1 (pyStrip ("src=./x" : String).data)).1⟩ : String) ∈
      (["src", "bin", "file", "option"] : List String) ∧
    load_bldfile (["# header", "  ", "stray line"] ++ "src=./x" :: ["prog=a"]) =
      .error () ∧
    runMain c9Env (some "g++") (["# header", "  ", "stray line"] ++ "src=./x" :: ["prog=a"]) =
      ⟨.exit1 .parseError, [], []⟩ := by
  have h := c9_field_before_prog_errors c9Env (some "g++")
    ["# header", "  ", "stray line"] "src=./x" ["prog=a"]
    (by decide) (by decide) (by decide)
  exact ⟨by decide, by decide, by decide, h.1, h.2⟩

/-- Environment for the C7 witness. -/
def c7Env : Env :=
  { isWindows := false
    isDir := fun s => s = "sdir"
    isFile := fun s => s = "sdir/a.cpp"
    mkdirOk := fun _ => true
    compileOk := fun _ => true }

/-- Parsed state for the C7 witness: one fully configured program. -/
def c7State : ParserState :=
  { progdic := [("a", "a")]
    srcdic := [("a", "sdir")]
    bindic := [("a", "bdir")]
    filedic := [("a", "a.cpp")]
    optdic := [("a", "-Wall;-O1")]
    cur := some "a" }

/-- Witness for C7: the concrete command for program `a` is
`["g++", "sdir/a.cpp", "-g", "-o", "bdir/a", "-Wall -O1"]`. -/
theorem c7_witness :
    dget c7State.filedic "a" = some "a.cpp" ∧ ("a.cpp" : String) ≠ "" ∧
    dget c7State.bindic "a" = some "bdir" ∧ ("bdir" : String) ≠ "" ∧
    c7Env.mkdirOk "bdir" = true ∧
    dget c7State.srcdic "a" = some "sdir" ∧
    validate_sources c7Env.isDir c7Env.isFile "sdir" "a.cpp" = .ok ["sdir/a.cpp"] ∧
    dget c7State.optdic "a" = some "-Wall;-O1" ∧
    stepCmd (buildStep c7Env "g++" c7State "a") =
      ["g++"] ++ ["sdir/a.cpp"] ++ ["-g", "-o",
        pathJoin "bdir" (get_binary_name c7Env.isWindows "a"),
        validate_options "-Wall;-O1"] := by
  refine ⟨by decide, by decide, by decide, by decide, by decide, by decide, rfl,
    by decide, ?_⟩
  exact c7_compile_command_shape c7Env "g++" c7State "a" "a.cpp" "bdir" "sdir" "-Wall;-O1"
    ["sdir/a.cpp"] (by decide) (by decide) (by decide) (by decide) (by decide)
    (by decide) rfl (by decide)
